import Mathlib

/-!
Shallow embedding of the Game Session Manager in src/server.js: the global
session table, the socket event handlers and the hourly reclamation sweep.
The rules engine (chess.js) and the transport (socket.io) are external
collaborators; the engine is modelled as an abstract record of functions over
an opaque position type, and transport side effects (socket.emit,
io.to(...).emit, socket.join) are reified as a list of Effect values returned
by each handler.  Timestamps are Int, standing for the JS numbers returned by
Date.now().
-/

namespace Server

/-- Chess colors, the JS strings "w" and "b". -/
inductive Color where
  | w
  | b
deriving DecidableEq, Repr

/-- The ternary `c === "w" ? "b" : "w"` used at lines 138 and 257 of
server.js to flip the turn and to compute the resignation winner. -/
def Color.flip : Color → Color
  | .w => .b
  | .b => .w

/-- Opaque rules-engine position state (the chess.js Chess object).  The
claims under verification never depend on chess semantics, only on whether
the engine accepts a move, so positions are abstract tokens. -/
abbrev Position := Nat

/-- The outcome stored in game.result: the string "draw" or the winning
color string. -/
inductive GameResult where
  | draw
  | winner (c : Color)
deriving DecidableEq, Repr

/-- One entry of game.playerInfo. -/
structure PlayerInfo where
  color : Color
  connected : Bool
  lastSeen : Int
deriving DecidableEq, Repr

/-- A session object, one value of the `games` table (server.js lines
78-90).  In JS, `finished` and `result` are absent until a draw or
resignation sets them; absence is modelled as the defaults false / none. -/
structure Game where
  gameState : Position
  players : List String
  turn : Color
  lastActivity : Int
  playerInfo : List (String × PlayerInfo)
  finished : Bool := false
  result : Option GameResult := none
deriving DecidableEq, Repr

/-- The external Rules Engine interface (spec section 6): chess.js calls
made by server.js.  `move` returns the successor position on acceptance and
none on rejection; `initial` is `new Chess()`. -/
structure Engine where
  move : Position → String → String → String → Option Position
  fen : Position → String
  isCheck : Position → Bool
  isCheckmate : Position → Bool
  isDraw : Position → Bool
  initial : Position

/-- Events the coordinator sends back through the transport. -/
inductive OutEvent where
  | gameCreated (gameId : String) (color : Color)
  | gameJoined (gameId : String) (color : Color)
  | gameStart (fen : String) (turn : Color)
  | errorMsg (message : String)
  | moveMade (fromSq toSq fen : String) (turn : Color)
      (isCheck isCheckmate isDraw : Bool)
  | yourTurn
  | gameStateSynced (fen : String) (turn : Color)
      (isCheck isCheckmate isDraw : Bool)
  | reconnectedToGame (gameId : String) (color : Color) (fen : String)
      (turn : Color) (isCheck isCheckmate isDraw : Bool)
  | opponentReconnected
  | drawOffered
  | drawAccepted
  | playerResigned (winner : Color)
  | opponentDisconnected
deriving DecidableEq, Repr

/-- A reified transport side effect.  `emit target ev` covers both
socket.emit (target = sender) and io.to(socketId).emit; `broadcast room ev`
is io.to(gameId).emit to the whole room; `joinRoom` is socket.join. -/
inductive Effect where
  | emit (target : String) (ev : OutEvent)
  | broadcast (room : String) (ev : OutEvent)
  | joinRoom (sock room : String)
deriving DecidableEq, Repr

/-- The global `games` object: an association from gameId to session.  JS
object keys are unique; tables built by the handlers keep keys unique, and
theorems that need uniqueness assume Nodup on the key list. -/
abbrev GameTable := List (String × Game)

/-- `games[gameId]` read access: first binding of the key, none if absent. -/
def lookupGame (table : GameTable) (gid : String) : Option Game :=
  match table with
  | [] => none
  | (k, g) :: rest => if k = gid then some g else lookupGame rest gid

/-- `games[gameId] = g` assignment: replace the first binding of the key,
or append a fresh binding.  The handlers mutate the looked-up game object in
place; in the embedding this is re-insertion of the updated value at the
same key. -/
def insertGame (table : GameTable) (gid : String) (g : Game) : GameTable :=
  match table with
  | [] => [(gid, g)]
  | (k, g0) :: rest =>
      if k = gid then (k, g) :: rest else (k, g0) :: insertGame rest gid g

/-- `game.playerInfo[id]` read access. -/
def lookupInfo (m : List (String × PlayerInfo)) (k : String) :
    Option PlayerInfo :=
  match m with
  | [] => none
  | (k0, v0) :: rest => if k0 = k then some v0 else lookupInfo rest k

/-- `game.playerInfo[id] = v` assignment. -/
def insertInfo (m : List (String × PlayerInfo)) (k : String)
    (v : PlayerInfo) : List (String × PlayerInfo) :=
  match m with
  | [] => [(k, v)]
  | (k0, v0) :: rest =>
      if k0 = k then (k0, v) :: rest else (k0, v0) :: insertInfo rest k v

/-- `delete game.playerInfo[id]` (server.js line 194). -/
def eraseInfo (m : List (String × PlayerInfo)) (k : String) :
    List (String × PlayerInfo) :=
  match m with
  | [] => []
  | (k0, v0) :: rest =>
      if k0 = k then rest else (k0, v0) :: eraseInfo rest k

/-- JS Array.prototype.indexOf: index of the first occurrence, -1 when the
element is absent (server.js lines 127, 185, 227, 255, 274). -/
def jsIndexOf (l : List String) (x : String) : Int :=
  match l with
  | [] => -1
  | a :: rest =>
      if a = x then 0
      else
        let r := jsIndexOf rest x
        if r = -1 then -1 else r + 1

/-- Lines 127-128: `const playerIndex = game.players.indexOf(socket.id);
const playerColor = playerIndex === 0 ? "w" : "b"`.  Note that an identity
occupying no slot gets index -1 and therefore color Black. -/
def playerColorOf (players : List String) (sock : String) : Color :=
  if jsIndexOf players sock = 0 then Color.w else Color.b

/-- Lines 228, 284: `const opponentIndex = playerIndex === 0 ? 1 : 0`. -/
def opponentIndexOf (players : List String) (sock : String) : Nat :=
  if jsIndexOf players sock = 0 then 1 else 0

/-- Handler for sync-game-state (server.js lines 55-74): refresh
lastActivity and emit the current state to the requester; silently ignored
when the session does not exist. -/
def syncGameState (e : Engine) (table : GameTable) (sock gid : String)
    (now : Int) : GameTable × List Effect :=
  match lookupGame table gid with
  | none => (table, [])
  | some g =>
      (insertGame table gid { g with lastActivity := now },
       [.emit sock (.gameStateSynced (e.fen g.gameState) g.turn
          (e.isCheck g.gameState) (e.isCheckmate g.gameState)
          (e.isDraw g.gameState))])

/-- Handler for create-game (server.js lines 76-94).  The random 6-char
gameId is a handler input here (a colliding id overwrites, as in JS). -/
def createGame (e : Engine) (table : GameTable) (sock gid : String)
    (now : Int) : GameTable × List Effect :=
  (insertGame table gid
    { gameState := e.initial
      players := [sock]
      turn := Color.w
      lastActivity := now
      playerInfo := [(sock, { color := Color.w, connected := true, lastSeen := now })] },
   [.joinRoom sock gid, .emit sock (.gameCreated gid Color.w)])

/-- Handler for join-game (server.js lines 96-117): requires the session to
exist with fewer than 2 players, appends the requester as Black, else emits
a combined not-found-or-full error. -/
def joinGame (e : Engine) (table : GameTable) (sock gid : String)
    (now : Int) : GameTable × List Effect :=
  match lookupGame table gid with
  | some g =>
      if g.players.length < 2 then
        let g' := { g with
          players := g.players ++ [sock]
          playerInfo := insertInfo g.playerInfo sock
            { color := Color.b, connected := true, lastSeen := now }
          lastActivity := now }
        (insertGame table gid g',
         [.joinRoom sock gid, .emit sock (.gameJoined gid Color.b),
          .broadcast gid (.gameStart (e.fen g'.gameState) g'.turn)])
      else (table, [.emit sock (.errorMsg "Game not found or full")])
  | none => (table, [.emit sock (.errorMsg "Game not found or full")])

/-- Handler for make-move (server.js lines 119-166): dropped when the
session is missing; "Not your turn" error when the derived color differs
from turn; on engine rejection (falsy move result) a silent no-op; on
acceptance flip the turn, refresh lastActivity, broadcast move-made and send
your-turn to the next player when that slot is occupied by a truthy id whose
playerInfo entry is connected. -/
def makeMove (e : Engine) (table : GameTable) (sock gid fromSq toSq : String)
    (now : Int) : GameTable × List Effect :=
  match lookupGame table gid with
  | none => (table, [])
  | some g =>
      let playerColor := playerColorOf g.players sock
      if g.turn ≠ playerColor then
        (table, [.emit sock (.errorMsg "Not your turn")])
      else
        match e.move g.gameState fromSq toSq "q" with
        | none => (table, [])
        | some pos =>
            let g' := { g with
              gameState := pos
              turn := g.turn.flip
              lastActivity := now }
            let nextPlayerIndex : Nat := if g'.turn = Color.w then 0 else 1
            let yourTurnEffs : List Effect :=
              match g'.players.get? nextPlayerIndex with
              | none => []
              | some pid =>
                  if pid = "" then []
                  else
                    match lookupInfo g'.playerInfo pid with
                    | some info => if info.connected then [.emit pid .yourTurn] else []
                    | none => []
            (insertGame table gid g',
             .broadcast gid (.moveMade fromSq toSq (e.fen pos) g'.turn
               (e.isCheck pos) (e.isCheckmate pos) (e.isDraw pos))
             :: yourTurnEffs)

/-- Handler for heartbeat (server.js lines 169-174): refresh lastSeen and
connected for an identity that has a playerInfo entry; otherwise a no-op. -/
def heartbeat (table : GameTable) (sock gid : String) (now : Int) :
    GameTable × List Effect :=
  match lookupGame table gid with
  | none => (table, [])
  | some g =>
      match lookupInfo g.playerInfo sock with
      | none => (table, [])
      | some info =>
          (insertGame table gid
            { g with playerInfo := (insertInfo g.playerInfo sock
                { info with lastSeen := now, connected := true }) },
           [])

/-- Handler for reconnect-to-game (server.js lines 177-221).  When
previousId occupies slot i the new socket replaces it, the playerInfo entry
moves to the new id, and the opponent slot (when occupied) is notified.  In
JS, a previousId that occupies a slot but has no playerInfo entry would
throw on line 192; that state is unreachable from the handlers, and the
model keeps playerInfo unchanged apart from erasing previousId there. -/
def reconnectToGame (e : Engine) (table : GameTable) (sock gid prevId : String)
    (now : Int) : GameTable × List Effect :=
  match lookupGame table gid with
  | none => (table, [.emit sock (.errorMsg "Game not found")])
  | some g =>
      let playerIndex := jsIndexOf g.players prevId
      if playerIndex ≠ -1 then
        let players' := g.players.set playerIndex.toNat sock
        let pinfo :=
          match lookupInfo g.playerInfo prevId with
          | some info =>
              eraseInfo (insertInfo g.playerInfo sock
                { info with connected := true, lastSeen := now }) prevId
          | none => eraseInfo g.playerInfo prevId
        let g' := { g with players := players', playerInfo := pinfo }
        let playerColor := if playerIndex = 0 then Color.w else Color.b
        let opponentIndex : Nat := if playerIndex = 0 then 1 else 0
        let opponentEffs : List Effect :=
          if opponentIndex < players'.length then
            [.emit ((players'.get? opponentIndex).getD "") .opponentReconnected]
          else []
        (insertGame table gid g',
         .joinRoom sock gid
         :: .emit sock (.reconnectedToGame gid playerColor (e.fen g.gameState)
              g.turn (e.isCheck g.gameState) (e.isCheckmate g.gameState)
              (e.isDraw g.gameState))
         :: opponentEffs)
      else (table, [.emit sock (.errorMsg "You are not a player in this game")])

/-- Handler for offer-draw (server.js lines 223-236): silently ignored when
the session is missing; when the opponent slot index is within players,
refresh lastActivity and notify that slot; otherwise nothing happens (note
that lastActivity is NOT updated in that case). -/
def offerDraw (table : GameTable) (sock gid : String) (now : Int) :
    GameTable × List Effect :=
  match lookupGame table gid with
  | none => (table, [])
  | some g =>
      let opponentIndex := opponentIndexOf g.players sock
      if opponentIndex < g.players.length then
        (insertGame table gid { g with lastActivity := now },
         [.emit ((g.players.get? opponentIndex).getD "") .drawOffered])
      else (table, [])

/-- Handler for accept-draw (server.js lines 238-249): only requires the
session to exist; refreshes lastActivity, broadcasts draw-accepted, and
sets finished / result unconditionally. -/
def acceptDraw (table : GameTable) (sock gid : String) (now : Int) :
    GameTable × List Effect :=
  match lookupGame table gid with
  | none => (table, [])
  | some g =>
      (insertGame table gid
        { g with lastActivity := now, finished := true,
                 result := some GameResult.draw },
       [.broadcast gid .drawAccepted])

/-- Handler for resign-game (server.js lines 251-266): the resigner color is
derived from the slot index (-1 maps to Black), the winner is its flip;
refreshes lastActivity, broadcasts player-resigned, sets finished / result
unconditionally. -/
def resignGame (table : GameTable) (sock gid : String) (now : Int) :
    GameTable × List Effect :=
  match lookupGame table gid with
  | none => (table, [])
  | some g =>
      let winner := (playerColorOf g.players sock).flip
      (insertGame table gid
        { g with lastActivity := now, finished := true,
                 result := some (GameResult.winner winner) },
       [.broadcast gid (.playerResigned winner)])

/-- Per-game part of the disconnect handler (server.js lines 272-290): mark
the identity disconnected when it occupies a slot and notify the opponent
slot when occupied.  Returns the updated game and the emitted effects. -/
def disconnectGame (sock : String) (now : Int) (g : Game) :
    Game × List Effect :=
  let playerIndex := jsIndexOf g.players sock
  if playerIndex ≠ -1 then
    let g' :=
      match lookupInfo g.playerInfo sock with
      | some info =>
          { g with playerInfo := (insertInfo g.playerInfo sock
              { info with connected := false, lastSeen := now }) }
      | none => g
    let opponentIndex : Nat := if playerIndex = 0 then 1 else 0
    let effs : List Effect :=
      if opponentIndex < g.players.length then
        [.emit ((g.players.get? opponentIndex).getD "") .opponentDisconnected]
      else []
    (g', effs)
  else (g, [])

/-- Handler for disconnect (server.js lines 268-291): iterate over every
session. -/
def onDisconnect (table : GameTable) (sock : String) (now : Int) :
    GameTable × List Effect :=
  (table.map (fun p => (p.1, (disconnectGame sock now p.2).1)),
   table.foldr (fun p acc => (disconnectGame sock now p.2).2 ++ acc) [])

/-- The 24-hour retention threshold in milliseconds (server.js line 300). -/
def retentionMs : Int := 24 * 60 * 60 * 1000

/-- One run of the hourly cleanup interval (server.js lines 295-305):
delete every game with `now - lastActivity > retentionMs`, keep the rest. -/
def cleanupSweep (now : Int) (table : GameTable) : GameTable :=
  table.filter (fun p => ! decide (now - p.2.lastActivity > retentionMs))

/-- An inbound transport event with its payload, the sender identity and
the Date.now() value observed while handling it. -/
inductive Event where
  | create (sock gid : String) (now : Int)
  | join (sock gid : String) (now : Int)
  | move (sock gid fromSq toSq : String) (now : Int)
  | sync (sock gid : String) (now : Int)
  | heartbeat (sock gid : String) (now : Int)
  | reconnect (sock gid prevId : String) (now : Int)
  | offerDraw (sock gid : String) (now : Int)
  | acceptDraw (sock gid : String) (now : Int)
  | resign (sock gid : String) (now : Int)
  | disconnect (sock : String) (now : Int)
deriving DecidableEq, Repr

/-- Dispatch one inbound event to its handler (the io.on connection block,
server.js lines 51-292). -/
def step (e : Engine) (table : GameTable) : Event → GameTable × List Effect
  | .create sock gid now => createGame e table sock gid now
  | .join sock gid now => joinGame e table sock gid now
  | .move sock gid fromSq toSq now => makeMove e table sock gid fromSq toSq now
  | .sync sock gid now => syncGameState e table sock gid now
  | .heartbeat sock gid now => heartbeat table sock gid now
  | .reconnect sock gid prevId now => reconnectToGame e table sock gid prevId now
  | .offerDraw sock gid now => offerDraw table sock gid now
  | .acceptDraw sock gid now => acceptDraw table sock gid now
  | .resign sock gid now => resignGame table sock gid now
  | .disconnect sock now => onDisconnect table sock now

/-- Process a sequence of inbound events starting from the empty table (the
server starts with `const games = {}`). -/
def run (e : Engine) (evs : List Event) : GameTable :=
  evs.foldl (fun t ev => (step e t ev).1) []

/-- Whether an effect list contains a move-made room broadcast: the
observable signature of an accepted move. -/
def hasMoveMade (effs : List Effect) : Bool :=
  effs.any fun eff =>
    match eff with
    | .broadcast _ (.moveMade _ _ _ _ _ _ _) => true
    | _ => false


/-- The players-list bound of spec section 8: every session in the table has
at most 2 players. -/
def playersBounded (table : GameTable) : Prop :=
  ∀ q ∈ table, q.2.players.length ≤ 2

/-- A concrete rules engine used to instantiate the theorems on closed
inputs: it accepts every move, stepping the position token. -/
def sampleEngine : Engine :=
  { move := fun p _ _ _ => some (p + 1)
    fen := fun _ => "FEN"
    isCheck := fun _ => false
    isCheckmate := fun _ => false
    isDraw := fun _ => false
    initial := 0 }

/-- A concrete rules engine that rejects every move. -/
def rejectAllEngine : Engine :=
  { sampleEngine with move := fun _ _ _ _ => none }

/-- A concrete session as created by create-game from "alice" at time 0. -/
def sampleGame : Game :=
  { gameState := 0
    players := ["alice"]
    turn := Color.w
    lastActivity := 0
    playerInfo := [("alice", { color := Color.w, connected := true, lastSeen := 0 })] }

/-- A concrete two-player session: "alice" is slot 0 White, "bob" is slot 1
Black, White to move. -/
def sampleGame2 : Game :=
  { gameState := 0
    players := ["alice", "bob"]
    turn := Color.w
    lastActivity := 0
    playerInfo := [("alice", { color := Color.w, connected := true, lastSeen := 0 }),
                   ("bob", { color := Color.b, connected := true, lastSeen := 0 })] }

/-- The two-player session with Black to move (used to exercise the
non-player default color path). -/
def blackTurnGame : Game :=
  { sampleGame2 with turn := Color.b }

/-! ### Lemmas about the table and map primitives -/

theorem lookupGame_insertGame_self (table : GameTable) (gid : String)
    (g : Game) : lookupGame (insertGame table gid g) gid = some g := by
  induction table with
  | nil => simp [insertGame, lookupGame]
  | cons p rest ih =>
      obtain ⟨k, g0⟩ := p
      by_cases hk : k = gid
      · simp [insertGame, lookupGame, hk]
      · simp [insertGame, lookupGame, hk, ih]

theorem mem_insertGame {p : String × Game} {table : GameTable} {gid : String}
    {g : Game} (h : p ∈ insertGame table gid g) : p ∈ table ∨ p = (gid, g) := by
  induction table with
  | nil =>
      simp only [insertGame, List.mem_singleton] at h
      exact Or.inr h
  | cons q rest ih =>
      obtain ⟨k, g0⟩ := q
      by_cases hk : k = gid
      · simp only [insertGame, if_pos hk] at h
        rcases List.mem_cons.mp h with h1 | h1
        · exact Or.inr (by simpa [hk] using h1)
        · exact Or.inl (List.mem_cons_of_mem _ h1)
      · simp only [insertGame, if_neg hk] at h
        rcases List.mem_cons.mp h with h1 | h1
        · exact Or.inl (by simp [h1])
        · rcases ih h1 with h2 | h2
          · exact Or.inl (List.mem_cons_of_mem _ h2)
          · exact Or.inr h2

theorem lookupGame_mem {table : GameTable} {gid : String} {g : Game}
    (h : lookupGame table gid = some g) : (gid, g) ∈ table := by
  induction table with
  | nil => simp [lookupGame] at h
  | cons q rest ih =>
      obtain ⟨k, g0⟩ := q
      by_cases hk : k = gid
      · simp only [lookupGame, if_pos hk, Option.some.injEq] at h
        simp [hk, h]
      · simp only [lookupGame, if_neg hk] at h
        exact List.mem_cons_of_mem _ (ih h)

theorem lookupInfo_insertInfo_self (m : List (String × PlayerInfo))
    (k : String) (v : PlayerInfo) : lookupInfo (insertInfo m k v) k = some v := by
  induction m with
  | nil => simp [insertInfo, lookupInfo]
  | cons p rest ih =>
      obtain ⟨k0, v0⟩ := p
      by_cases hk : k0 = k
      · simp [insertInfo, lookupInfo, hk]
      · simp [insertInfo, lookupInfo, hk, ih]

theorem jsIndexOf_nonneg_or (l : List String) (x : String) :
    0 ≤ jsIndexOf l x ∨ jsIndexOf l x = -1 := by
  induction l with
  | nil => simp [jsIndexOf]
  | cons a rest ih =>
      by_cases ha : a = x
      · simp [jsIndexOf, ha]
      · by_cases hr : jsIndexOf rest x = -1
        · simp [jsIndexOf, ha, hr]
        · rcases ih with h | h
          · left
            simp only [jsIndexOf, if_neg ha, if_neg hr]
            omega
          · exact absurd h hr

theorem jsIndexOf_eq_neg_one_iff (l : List String) (x : String) :
    jsIndexOf l x = -1 ↔ x ∉ l := by
  induction l with
  | nil => simp [jsIndexOf]
  | cons a rest ih =>
      by_cases ha : a = x
      · simp [jsIndexOf, ha]
      · by_cases hr : jsIndexOf rest x = -1
        · simp [jsIndexOf, ha, hr, Ne.symm ha, ih.mp hr]
        · have hx : x ∈ rest := by
            by_contra hx
            exact hr (ih.mpr hx)
          have hni : jsIndexOf rest x + 1 ≠ -1 := by
            have : 0 ≤ jsIndexOf rest x := by
              rcases jsIndexOf_nonneg_or rest x with h | h
              · exact h
              · exact absurd h hr
            omega
          simp [jsIndexOf, ha, hr, hni, hx]


theorem playersBounded_insertGame {table : GameTable} {gid : String}
    {g : Game} (hb : playersBounded table) (hg : g.players.length ≤ 2) :
    playersBounded (insertGame table gid g) := by
  intro q hq
  rcases mem_insertGame hq with h | h
  · exact hb q h
  · subst h
    exact hg

theorem playersBounded_createGame (e : Engine) (table : GameTable)
    (sock gid : String) (now : Int) (hb : playersBounded table) :
    playersBounded (createGame e table sock gid now).1 := by
  exact playersBounded_insertGame hb (by simp)

theorem playersBounded_joinGame (e : Engine) (table : GameTable)
    (sock gid : String) (now : Int) (hb : playersBounded table) :
    playersBounded (joinGame e table sock gid now).1 := by
  unfold joinGame
  cases hlk : lookupGame table gid with
  | none => simpa using hb
  | some g =>
      by_cases hlen : g.players.length < 2
      · simp only [hlen, if_pos hlen]
        refine playersBounded_insertGame hb ?_
        have := hb _ (lookupGame_mem hlk)
        simp only [List.length_append, List.length_singleton]
        omega
      · simp only [hlen, if_neg hlen]
        simpa using hb

theorem playersBounded_makeMove (e : Engine) (table : GameTable)
    (sock gid fromSq toSq : String) (now : Int) (hb : playersBounded table) :
    playersBounded (makeMove e table sock gid fromSq toSq now).1 := by
  unfold makeMove
  cases hlk : lookupGame table gid with
  | none => simpa using hb
  | some g =>
      by_cases hturn : g.turn ≠ playerColorOf g.players sock
      · simp only [hturn, if_pos hturn]
        simpa using hb
      · simp only [hturn, if_neg hturn]
        cases hm : e.move g.gameState fromSq toSq "q" with
        | none => simpa using hb
        | some pos =>
            refine playersBounded_insertGame hb ?_
            exact hb _ (lookupGame_mem hlk)

theorem playersBounded_syncGameState (e : Engine) (table : GameTable)
    (sock gid : String) (now : Int) (hb : playersBounded table) :
    playersBounded (syncGameState e table sock gid now).1 := by
  unfold syncGameState
  cases hlk : lookupGame table gid with
  | none => simpa using hb
  | some g => exact playersBounded_insertGame hb (hb _ (lookupGame_mem hlk))

theorem playersBounded_heartbeat (table : GameTable) (sock gid : String)
    (now : Int) (hb : playersBounded table) :
    playersBounded (heartbeat table sock gid now).1 := by
  unfold heartbeat
  cases hlk : lookupGame table gid with
  | none => simpa using hb
  | some g =>
      dsimp only
      cases hli : lookupInfo g.playerInfo sock with
      | none => simpa using hb
      | some info => exact playersBounded_insertGame hb (hb _ (lookupGame_mem hlk))

theorem playersBounded_reconnectToGame (e : Engine) (table : GameTable)
    (sock gid prevId : String) (now : Int) (hb : playersBounded table) :
    playersBounded (reconnectToGame e table sock gid prevId now).1 := by
  unfold reconnectToGame
  cases hlk : lookupGame table gid with
  | none => simpa using hb
  | some g =>
      by_cases hidx : jsIndexOf g.players prevId ≠ -1
      · simp only [hidx, if_pos hidx]
        refine playersBounded_insertGame hb ?_
        have := hb _ (lookupGame_mem hlk)
        simpa [List.length_set] using this
      · simp only [hidx, if_neg hidx]
        simpa using hb

theorem playersBounded_offerDraw (table : GameTable) (sock gid : String)
    (now : Int) (hb : playersBounded table) :
    playersBounded (offerDraw table sock gid now).1 := by
  unfold offerDraw
  cases hlk : lookupGame table gid with
  | none => simpa using hb
  | some g =>
      by_cases hlen : opponentIndexOf g.players sock < g.players.length
      · simp only [hlen, if_pos hlen]
        exact playersBounded_insertGame hb (hb _ (lookupGame_mem hlk))
      · simp only [hlen, if_neg hlen]
        simpa using hb

theorem playersBounded_acceptDraw (table : GameTable) (sock gid : String)
    (now : Int) (hb : playersBounded table) :
    playersBounded (acceptDraw table sock gid now).1 := by
  unfold acceptDraw
  cases hlk : lookupGame table gid with
  | none => simpa using hb
  | some g => exact playersBounded_insertGame hb (hb _ (lookupGame_mem hlk))

theorem playersBounded_resignGame (table : GameTable) (sock gid : String)
    (now : Int) (hb : playersBounded table) :
    playersBounded (resignGame table sock gid now).1 := by
  unfold resignGame
  cases hlk : lookupGame table gid with
  | none => simpa using hb
  | some g => exact playersBounded_insertGame hb (hb _ (lookupGame_mem hlk))

theorem disconnectGame_players (sock : String) (now : Int) (g : Game) :
    ((disconnectGame sock now g).1).players = g.players := by
  unfold disconnectGame
  by_cases hidx : jsIndexOf g.players sock ≠ -1
  · simp only [hidx, if_pos hidx]
    cases hli : lookupInfo g.playerInfo sock with
    | none => simp
    | some info => simp
  · simp [hidx]

theorem playersBounded_onDisconnect (table : GameTable) (sock : String)
    (now : Int) (hb : playersBounded table) :
    playersBounded (onDisconnect table sock now).1 := by
  intro q hq
  simp only [onDisconnect, List.mem_map] at hq
  obtain ⟨p, hp, hpq⟩ := hq
  subst hpq
  simpa [disconnectGame_players] using hb p hp

theorem playersBounded_step (e : Engine) (table : GameTable) (ev : Event)
    (hb : playersBounded table) : playersBounded (step e table ev).1 := by
  cases ev with
  | create sock gid now => exact playersBounded_createGame e table sock gid now hb
  | join sock gid now => exact playersBounded_joinGame e table sock gid now hb
  | move sock gid fromSq toSq now =>
      exact playersBounded_makeMove e table sock gid fromSq toSq now hb
  | sync sock gid now => exact playersBounded_syncGameState e table sock gid now hb
  | heartbeat sock gid now => exact playersBounded_heartbeat table sock gid now hb
  | reconnect sock gid prevId now =>
      exact playersBounded_reconnectToGame e table sock gid prevId now hb
  | offerDraw sock gid now => exact playersBounded_offerDraw table sock gid now hb
  | acceptDraw sock gid now => exact playersBounded_acceptDraw table sock gid now hb
  | resign sock gid now => exact playersBounded_resignGame table sock gid now hb
  | disconnect sock now => exact playersBounded_onDisconnect table sock now hb

theorem playersBounded_foldl (e : Engine) (evs : List Event) :
    ∀ table : GameTable, playersBounded table →
      playersBounded (evs.foldl (fun t ev => (step e t ev).1) table) := by
  induction evs with
  | nil => intro table hb; simpa using hb
  | cons ev rest ih =>
      intro table hb
      exact ih _ (playersBounded_step e table ev hb)

theorem playersBounded_run (e : Engine) (evs : List Event) :
    playersBounded (run e evs) := by
  unfold run
  exact playersBounded_foldl e evs [] (by intro q hq; simp at hq)


theorem lookupGame_eq_none_of_not_mem_keys {table : GameTable} {k : String}
    (h : k ∉ table.map Prod.fst) : lookupGame table k = none := by
  induction table with
  | nil => rfl
  | cons q rest ih =>
      obtain ⟨k0, g0⟩ := q
      simp only [List.map_cons, List.mem_cons, not_or] at h
      simp only [lookupGame, if_neg (Ne.symm h.1)]
      exact ih h.2

theorem lookupGame_filter_none {table : GameTable} {k : String}
    (p : String × Game → Bool) (h : lookupGame table k = none) :
    lookupGame (table.filter p) k = none := by
  induction table with
  | nil => rfl
  | cons q rest ih =>
      obtain ⟨k0, g0⟩ := q
      by_cases hk : k0 = k
      · simp [lookupGame, hk] at h
      · simp only [lookupGame, if_neg hk] at h
        by_cases hp : p (k0, g0)
        · simp only [List.filter_cons, if_pos hp]
          simpa [lookupGame, hk] using ih h
        · simp only [List.filter_cons, if_neg hp]
          exact ih h

theorem lookupGame_filter {table : GameTable} {k : String} {g : Game}
    (p : String × Game → Bool) (hnd : (table.map Prod.fst).Nodup)
    (hg : lookupGame table k = some g) :
    lookupGame (table.filter p) k = if p (k, g) then some g else none := by
  induction table with
  | nil => simp [lookupGame] at hg
  | cons q rest ih =>
      obtain ⟨k0, g0⟩ := q
      simp only [List.map_cons, List.nodup_cons] at hnd
      by_cases hk : k0 = k
      · subst hk
        simp [lookupGame] at hg
        subst hg
        by_cases hp : p (k0, g0)
        · simp [List.filter_cons, hp, lookupGame]
        · simp only [List.filter_cons, if_neg hp]
          exact lookupGame_filter_none p
            (lookupGame_eq_none_of_not_mem_keys hnd.1)
      · simp only [lookupGame, if_neg hk] at hg
        by_cases hp : p (k0, g0)
        · simp only [List.filter_cons, if_pos hp]
          simp only [lookupGame, if_neg hk]
          exact ih hnd.2 hg
        · simp only [List.filter_cons, if_neg hp]
          exact ih hnd.2 hg

theorem nodupKeys_filter (table : GameTable) (p : String × Game → Bool)
    (hnd : (table.map Prod.fst).Nodup) :
    ((table.filter p).map Prod.fst).Nodup := by
  have hs : (table.filter p).Sublist table := List.filter_sublist table
  exact (hs.map Prod.fst).nodup hnd

theorem lookupGame_cleanupSweep {now : Int} {table : GameTable} {gid : String}
    {g : Game} (hnd : (table.map Prod.fst).Nodup)
    (hg : lookupGame table gid = some g) :
    lookupGame (cleanupSweep now table) gid =
      if now - g.lastActivity > retentionMs then none else some g := by
  unfold cleanupSweep
  rw [lookupGame_filter _ hnd hg]
  by_cases hc : now - g.lastActivity > retentionMs
  · simp [hc]
  · simp [hc]

theorem nodupKeys_cleanupSweep (now : Int) (table : GameTable)
    (hnd : (table.map Prod.fst).Nodup) :
    ((cleanupSweep now table).map Prod.fst).Nodup :=
  nodupKeys_filter table _ hnd

theorem survives_sweeps (ts : List Int) :
    ∀ table : GameTable, (table.map Prod.fst).Nodup →
      ∀ {gid : String} {g : Game}, lookupGame table gid = some g →
      (∀ t ∈ ts, ¬(t - g.lastActivity > retentionMs)) →
      lookupGame (ts.foldl (fun tb t => cleanupSweep t tb) table) gid = some g := by
  induction ts with
  | nil =>
      intro table _ gid g hg _
      simpa using hg
  | cons t rest ih =>
      intro table hnd gid g hg hall
      simp only [List.foldl_cons]
      refine ih _ (nodupKeys_cleanupSweep t table hnd) ?_ ?_
      · rw [lookupGame_cleanupSweep hnd hg, if_neg (hall t (by simp))]
      · intro t2 ht2
        exact hall t2 (List.mem_cons_of_mem _ ht2)


/-! ### Claim theorems -/

/-- Claim C1: a make-move event is accepted (a move-made broadcast is
produced) only if the requester color derived from its slot index (index 0
is White, any other index Black, exactly as the handler derives it) equals
the session turn, and after an accepted move the stored turn is exactly the
flip of that color. -/
theorem claim1_move_turn_enforcement (e : Engine) (table : GameTable)
    (sock gid fromSq toSq : String) (now : Int) (g : Game)
    (hg : lookupGame table gid = some g)
    (hacc : hasMoveMade (makeMove e table sock gid fromSq toSq now).2 = true) :
    playerColorOf g.players sock = g.turn ∧
      (lookupGame (makeMove e table sock gid fromSq toSq now).1 gid).map Game.turn
        = some (playerColorOf g.players sock).flip := by
  unfold makeMove at hacc ⊢
  rw [hg] at hacc ⊢
  by_cases ht : g.turn ≠ playerColorOf g.players sock
  · simp only [if_pos ht] at hacc
    simp [hasMoveMade] at hacc
  · simp only [if_neg ht] at hacc ⊢
    push_neg at ht
    cases hm : e.move g.gameState fromSq toSq "q" with
    | none =>
        rw [hm] at hacc
        simp [hasMoveMade] at hacc
    | some pos =>
        refine ⟨ht.symm, ?_⟩
        simp [lookupGame_insertGame_self, ht]

/-- Closed witness for claim C1: the theorem instantiated at a concrete
accepted move by the White slot holder. -/
theorem claim1_witness :
    playerColorOf sampleGame2.players "alice" = sampleGame2.turn ∧
      (lookupGame (makeMove sampleEngine [("g1", sampleGame2)] "alice" "g1" "e2" "e4" 5).1 "g1").map Game.turn
        = some (playerColorOf sampleGame2.players "alice").flip :=
  claim1_move_turn_enforcement sampleEngine [("g1", sampleGame2)] "alice" "g1" "e2" "e4" 5
    sampleGame2 rfl (by decide)

/-- Counterexample to claim C2 as stated: on a one-player session,
resign-game records Black as winner in result, and a subsequent accept-draw
on the same finished session overwrites result with draw, so result is not
immutable once set. -/
theorem claim2_counterexample :
    lookupGame [("g1", sampleGame)] "g1" = some sampleGame ∧
    ((lookupGame (resignGame [("g1", sampleGame)] "alice" "g1" 10).1 "g1").map Game.result
       = some (some (GameResult.winner Color.b))) ∧
    ((lookupGame (acceptDraw (resignGame [("g1", sampleGame)] "alice" "g1" 10).1 "bob" "g1" 20).1 "g1").map Game.result
       = some (some GameResult.draw)) := by
  decide

/-- Claim C2 amended: after accept-draw or resign-game the session has
finished = true and result set (draw, respectively the flip of the resigner
derived color); but the handlers have no finished guard, so a subsequent
draw or resign event on the session overwrites result rather than leaving
it unchanged. -/
theorem claim2_amended (table : GameTable) (sock gid : String)
    (now : Int) (g : Game) (hg : lookupGame table gid = some g) :
    (lookupGame (acceptDraw table sock gid now).1 gid =
       some ({ g with lastActivity := now, finished := true,
                      result := some GameResult.draw })) ∧
    (lookupGame (resignGame table sock gid now).1 gid =
       some ({ g with lastActivity := now, finished := true,
                      result := some (GameResult.winner (playerColorOf g.players sock).flip) })) := by
  unfold acceptDraw resignGame
  rw [hg]
  constructor
  · simp [lookupGame_insertGame_self]
  · simp [lookupGame_insertGame_self]

/-- Closed witness for the amended claim C2 at a concrete session. -/
theorem claim2_witness :
    (lookupGame (acceptDraw [("g1", sampleGame)] "alice" "g1" 7).1 "g1" =
       some ({ sampleGame with lastActivity := 7, finished := true,
                               result := some GameResult.draw })) ∧
    (lookupGame (resignGame [("g1", sampleGame)] "alice" "g1" 7).1 "g1" =
       some ({ sampleGame with lastActivity := 7, finished := true,
                               result := some (GameResult.winner (playerColorOf sampleGame.players "alice").flip) })) :=
  claim2_amended [("g1", sampleGame)] "alice" "g1" 7 sampleGame rfl

/-- Claim C3: for a table with unique keys, a sweep at time now retains a
session exactly when now - lastActivity does not exceed the 24 hour
threshold (the condition never reads finished), and any number of sweep
runs at times within the window keeps the session. -/
theorem claim3_reclamation (now : Int) (table : GameTable) (gid : String)
    (g : Game) (hnd : (table.map Prod.fst).Nodup)
    (hg : lookupGame table gid = some g) :
    (lookupGame (cleanupSweep now table) gid = some g ↔
       ¬(now - g.lastActivity > retentionMs)) ∧
    (∀ ts : List Int, (∀ t ∈ ts, ¬(t - g.lastActivity > retentionMs)) →
       lookupGame (ts.foldl (fun tb t => cleanupSweep t tb) table) gid = some g) := by
  constructor
  · rw [lookupGame_cleanupSweep hnd hg]
    by_cases hc : now - g.lastActivity > retentionMs
    · simp [hc]
    · simp [hc]
  · intro ts hall
    exact survives_sweeps ts table hnd hg hall

/-- Closed witness for claim C3 at a concrete single-session table and
two in-window sweep times. -/
theorem claim3_witness :
    (lookupGame (cleanupSweep 100 [("g1", sampleGame)]) "g1" = some sampleGame ↔
       ¬((100 : Int) - sampleGame.lastActivity > retentionMs)) ∧
    lookupGame (List.foldl (fun tb t => cleanupSweep t tb) [("g1", sampleGame)] [50, 60]) "g1"
      = some sampleGame :=
  ⟨(claim3_reclamation 100 [("g1", sampleGame)] "g1" sampleGame (by decide) rfl).1,
   (claim3_reclamation 100 [("g1", sampleGame)] "g1" sampleGame (by decide) rfl).2 [50, 60] (by decide)⟩

/-- Claim C4: starting from the empty table, any sequence of inbound
events leaves every session with at most 2 players; and join-game on a
session that already has 2 players leaves the table unchanged, emitting
only the error to the requester. -/
theorem claim4_players_bound :
    (∀ (e : Engine) (evs : List Event) (gid : String) (g : Game),
        lookupGame (run e evs) gid = some g → g.players.length ≤ 2) ∧
    (∀ (e : Engine) (table : GameTable) (sock gid : String) (now : Int) (g : Game),
        lookupGame table gid = some g → ¬g.players.length < 2 →
        joinGame e table sock gid now =
          (table, [Effect.emit sock (OutEvent.errorMsg "Game not found or full")])) := by
  constructor
  · intro e evs gid g hg
    exact playersBounded_run e evs _ (lookupGame_mem hg)
  · intro e table sock gid now g hg hfull
    unfold joinGame
    rw [hg]
    simp [hfull]

/-- Closed witness for claim C4: a one-event run and a rejected join on
a full session. -/
theorem claim4_witness :
    sampleGame.players.length ≤ 2 ∧
      joinGame sampleEngine [("g1", sampleGame2)] "carol" "g1" 9 =
        ([("g1", sampleGame2)],
         [Effect.emit "carol" (OutEvent.errorMsg "Game not found or full")]) :=
  ⟨claim4_players_bound.1 sampleEngine [Event.create "alice" "g1" 0] "g1" sampleGame rfl,
   claim4_players_bound.2 sampleEngine [("g1", sampleGame2)] "carol" "g1" 9 sampleGame2
     rfl (by decide)⟩

/-- Claim C5: reconnect-to-game on an existing session with a previousId
occupying no slot emits only the NotAPlayer error to the requester and
returns the table unchanged, so players, playerInfo and every other session
field are untouched. -/
theorem claim5_reconnect_not_a_player (e : Engine) (table : GameTable)
    (sock gid prevId : String) (now : Int) (g : Game)
    (hg : lookupGame table gid = some g) (hnp : prevId ∉ g.players) :
    reconnectToGame e table sock gid prevId now =
      (table, [Effect.emit sock (OutEvent.errorMsg "You are not a player in this game")]) := by
  unfold reconnectToGame
  rw [hg]
  have hidx : jsIndexOf g.players prevId = -1 := (jsIndexOf_eq_neg_one_iff _ _).mpr hnp
  simp [hidx]

/-- Closed witness for claim C5 with a previousId that is not a
player. -/
theorem claim5_witness :
    reconnectToGame sampleEngine [("g1", sampleGame2)] "dave" "g1" "mallory" 3 =
      ([("g1", sampleGame2)],
       [Effect.emit "dave" (OutEvent.errorMsg "You are not a player in this game")]) :=
  claim5_reconnect_not_a_player sampleEngine [("g1", sampleGame2)] "dave" "g1" "mallory" 3
    sampleGame2 rfl (by decide)

/-- Counterexample to claim C6 as stated: the session exists with
lastActivity 0 and only slot 0 occupied; its player offers a draw at time
999 and the handler returns the table unchanged, so offer-draw did not
update lastActivity. -/
theorem claim6_counterexample :
    lookupGame [("g1", sampleGame)] "g1" = some sampleGame ∧
    sampleGame.lastActivity = 0 ∧
    offerDraw [("g1", sampleGame)] "alice" "g1" 999 = ([("g1", sampleGame)], []) := by
  decide

/-- Claim C6 amended: accept-draw and resign-game always update
lastActivity of an existing session, and all three draw or resign handlers
silently ignore a missing session; offer-draw updates lastActivity only
when the opponent slot index falls within the players list and is otherwise
a complete no-op. -/
theorem claim6_amended (table : GameTable) (sock gid : String) (now : Int)
    (g : Game) (hg : lookupGame table gid = some g) :
    ((lookupGame (acceptDraw table sock gid now).1 gid).map Game.lastActivity = some now) ∧
    ((lookupGame (resignGame table sock gid now).1 gid).map Game.lastActivity = some now) ∧
    (opponentIndexOf g.players sock < g.players.length →
       (lookupGame (offerDraw table sock gid now).1 gid).map Game.lastActivity = some now) ∧
    (¬opponentIndexOf g.players sock < g.players.length →
       offerDraw table sock gid now = (table, [])) ∧
    (∀ gid2 : String, lookupGame table gid2 = none →
       acceptDraw table sock gid2 now = (table, []) ∧
       resignGame table sock gid2 now = (table, []) ∧
       offerDraw table sock gid2 now = (table, [])) := by
  refine ⟨?_, ?_, ?_, ?_, ?_⟩
  · unfold acceptDraw
    rw [hg]
    simp [lookupGame_insertGame_self]
  · unfold resignGame
    rw [hg]
    simp [lookupGame_insertGame_self]
  · intro hopp
    unfold offerDraw
    rw [hg]
    simp [hopp, lookupGame_insertGame_self]
  · intro hopp
    unfold offerDraw
    rw [hg]
    simp [hopp]
  · intro gid2 hnone
    unfold acceptDraw resignGame offerDraw
    rw [hnone]
    exact ⟨rfl, rfl, rfl⟩

/-- Closed witness for the amended claim C6 on a two-player session. -/
theorem claim6_witness :
    ((lookupGame (acceptDraw [("g1", sampleGame2)] "alice" "g1" 42).1 "g1").map Game.lastActivity = some 42) ∧
    ((lookupGame (resignGame [("g1", sampleGame2)] "alice" "g1" 42).1 "g1").map Game.lastActivity = some 42) ∧
    (opponentIndexOf sampleGame2.players "alice" < sampleGame2.players.length →
       (lookupGame (offerDraw [("g1", sampleGame2)] "alice" "g1" 42).1 "g1").map Game.lastActivity = some 42) ∧
    (¬opponentIndexOf sampleGame2.players "alice" < sampleGame2.players.length →
       offerDraw [("g1", sampleGame2)] "alice" "g1" 42 = ([("g1", sampleGame2)], [])) ∧
    (∀ gid2 : String, lookupGame [("g1", sampleGame2)] gid2 = none →
       acceptDraw [("g1", sampleGame2)] "alice" gid2 42 = ([("g1", sampleGame2)], []) ∧
       resignGame [("g1", sampleGame2)] "alice" gid2 42 = ([("g1", sampleGame2)], []) ∧
       offerDraw [("g1", sampleGame2)] "alice" gid2 42 = ([("g1", sampleGame2)], [])) :=
  claim6_amended [("g1", sampleGame2)] "alice" "g1" 42 sampleGame2 rfl

/-- Claim C7: when the session exists, the requester is in turn, and the
rules engine rejects the move, make-move returns the table unchanged with
no effects at all: no broadcast, no turn flip, no lastActivity update, and
no error surfaced to the mover. -/
theorem claim7_illegal_move_noop (e : Engine) (table : GameTable)
    (sock gid fromSq toSq : String) (now : Int) (g : Game)
    (hg : lookupGame table gid = some g)
    (hturn : g.turn = playerColorOf g.players sock)
    (hrej : e.move g.gameState fromSq toSq "q" = none) :
    makeMove e table sock gid fromSq toSq now = (table, []) := by
  unfold makeMove
  rw [hg]
  simp [hturn, hrej]

/-- Closed witness for claim C7 with the engine that rejects every
move. -/
theorem claim7_witness :
    makeMove rejectAllEngine [("g1", sampleGame2)] "alice" "g1" "e2" "e5" 8 =
      ([("g1", sampleGame2)], []) :=
  claim7_illegal_move_noop rejectAllEngine [("g1", sampleGame2)] "alice" "g1" "e2" "e5" 8
    sampleGame2 rfl (by decide) rfl

/-- Claim C8: an identity occupying no slot gets indexOf result -1 and
hence derived color Black; its move is accepted whenever turn is Black and
the engine accepts it (the turn flips to White and move-made is broadcast),
and its resignation finishes the session with White recorded as winner. -/
theorem claim8_nonplayer_defaults (e : Engine) (table : GameTable)
    (sock gid fromSq toSq : String) (now : Int) (g : Game)
    (hg : lookupGame table gid = some g) (hns : sock ∉ g.players) :
    (∀ pos : Position, g.turn = Color.b →
       e.move g.gameState fromSq toSq "q" = some pos →
       lookupGame (makeMove e table sock gid fromSq toSq now).1 gid =
         some ({ g with gameState := pos, turn := Color.w, lastActivity := now }) ∧
       Effect.broadcast gid (OutEvent.moveMade fromSq toSq (e.fen pos) Color.w
           (e.isCheck pos) (e.isCheckmate pos) (e.isDraw pos))
         ∈ (makeMove e table sock gid fromSq toSq now).2) ∧
    resignGame table sock gid now =
      (insertGame table gid
        ({ g with lastActivity := now, finished := true,
                  result := some (GameResult.winner Color.w) }),
       [Effect.broadcast gid (OutEvent.playerResigned Color.w)]) := by
  have hidx : jsIndexOf g.players sock = -1 := (jsIndexOf_eq_neg_one_iff _ _).mpr hns
  have hcol : playerColorOf g.players sock = Color.b := by
    unfold playerColorOf
    rw [hidx]
    simp
  constructor
  · intro pos hturn hmv
    unfold makeMove
    rw [hg]
    simp only [hcol, hturn, hmv, ne_eq, not_true_eq_false, if_false]
    constructor
    · rw [lookupGame_insertGame_self]
      simp [Color.flip]
    · simp [Color.flip]
  · unfold resignGame
    rw [hg]
    simp [hcol, Color.flip]

/-- Closed witness for claim C8: the stranger mallory moves and resigns
in a session whose players are alice and bob. -/
theorem claim8_witness :
    (lookupGame (makeMove sampleEngine [("g1", blackTurnGame)] "mallory" "g1" "e7" "e5" 9).1 "g1" =
       some ({ blackTurnGame with gameState := 1, turn := Color.w, lastActivity := 9 })) ∧
    (Effect.broadcast "g1" (OutEvent.moveMade "e7" "e5" "FEN" Color.w false false false)
       ∈ (makeMove sampleEngine [("g1", blackTurnGame)] "mallory" "g1" "e7" "e5" 9).2) ∧
    resignGame [("g1", blackTurnGame)] "mallory" "g1" 9 =
      (insertGame [("g1", blackTurnGame)] "g1"
        ({ blackTurnGame with lastActivity := 9, finished := true,
                              result := some (GameResult.winner Color.w) }),
       [Effect.broadcast "g1" (OutEvent.playerResigned Color.w)]) := by
  have h := claim8_nonplayer_defaults sampleEngine [("g1", blackTurnGame)] "mallory" "g1"
    "e7" "e5" 9 blackTurnGame rfl (by decide)
  obtain ⟨hmove, hres⟩ := h
  obtain ⟨h1, h2⟩ := hmove 1 rfl rfl
  exact ⟨h1, h2, hres⟩

/-- Claim C9: join-game does not check whether the requester already
occupies slot 0, so on a session whose players list is exactly that single
identity the join succeeds, the identity then occupies both slots, and its
single playerInfo entry is overwritten with color Black. -/
theorem claim9_self_join (e : Engine) (table : GameTable) (sock gid : String)
    (now : Int) (g : Game) (hg : lookupGame table gid = some g)
    (hp : g.players = [sock]) :
    joinGame e table sock gid now =
      (insertGame table gid
        ({ g with players := [sock, sock]
                  playerInfo := insertInfo g.playerInfo sock
                    { color := Color.b, connected := true, lastSeen := now }
                  lastActivity := now }),
       [Effect.joinRoom sock gid, Effect.emit sock (OutEvent.gameJoined gid Color.b),
        Effect.broadcast gid (OutEvent.gameStart (e.fen g.gameState) g.turn)]) ∧
    lookupInfo (insertInfo g.playerInfo sock
        { color := Color.b, connected := true, lastSeen := now }) sock =
      some { color := Color.b, connected := true, lastSeen := now } := by
  constructor
  · unfold joinGame
    rw [hg]
    simp [hp]
  · exact lookupInfo_insertInfo_self _ _ _

/-- Closed witness for claim C9: alice joins her own game. -/
theorem claim9_witness :
    joinGame sampleEngine [("g1", sampleGame)] "alice" "g1" 6 =
      (insertGame [("g1", sampleGame)] "g1"
        ({ sampleGame with players := ["alice", "alice"]
                           playerInfo := insertInfo sampleGame.playerInfo "alice"
                             { color := Color.b, connected := true, lastSeen := 6 }
                           lastActivity := 6 }),
       [Effect.joinRoom "alice" "g1", Effect.emit "alice" (OutEvent.gameJoined "g1" Color.b),
        Effect.broadcast "g1" (OutEvent.gameStart (sampleEngine.fen sampleGame.gameState) sampleGame.turn)]) ∧
    lookupInfo (insertInfo sampleGame.playerInfo "alice"
        { color := Color.b, connected := true, lastSeen := 6 }) "alice" =
      some { color := Color.b, connected := true, lastSeen := 6 } :=
  claim9_self_join sampleEngine [("g1", sampleGame)] "alice" "g1" 6 sampleGame rfl rfl

/-- Claim C10: accept-draw requires only that the session exist: for any
requester identity, slot holder or not, and with no offer-draw state
tracked anywhere, it broadcasts draw-accepted to the room and sets
finished = true and result = draw. -/
theorem claim10_acceptDraw_unconditional (table : GameTable) (sock gid : String)
    (now : Int) (g : Game) (hg : lookupGame table gid = some g) :
    acceptDraw table sock gid now =
      (insertGame table gid
        ({ g with lastActivity := now, finished := true,
                  result := some GameResult.draw }),
       [Effect.broadcast gid OutEvent.drawAccepted]) ∧
    (lookupGame (acceptDraw table sock gid now).1 gid).map Game.finished = some true ∧
    (lookupGame (acceptDraw table sock gid now).1 gid).map Game.result =
      some (some GameResult.draw) := by
  refine ⟨?_, ?_, ?_⟩
  · unfold acceptDraw
    rw [hg]
  · unfold acceptDraw
    rw [hg]
    simp [lookupGame_insertGame_self]
  · unfold acceptDraw
    rw [hg]
    simp [lookupGame_insertGame_self]

/-- Closed witness for claim C10: a requester occupying no slot accepts
a draw that was never offered. -/
theorem claim10_witness :
    acceptDraw [("g1", sampleGame)] "zed" "g1" 11 =
      (insertGame [("g1", sampleGame)] "g1"
        ({ sampleGame with lastActivity := 11, finished := true,
                           result := some GameResult.draw }),
       [Effect.broadcast "g1" OutEvent.drawAccepted]) ∧
    (lookupGame (acceptDraw [("g1", sampleGame)] "zed" "g1" 11).1 "g1").map Game.finished = some true ∧
    (lookupGame (acceptDraw [("g1", sampleGame)] "zed" "g1" 11).1 "g1").map Game.result =
      some (some GameResult.draw) :=
  claim10_acceptDraw_unconditional [("g1", sampleGame)] "zed" "g1" 11 sampleGame rfl

end Server
